import Mathlib

/-!
Verification of the brat text-animation renderer (src/renderer.js and the
unnamed renderer module).  The render math is embedded shallowly: JavaScript
numbers are modelled as exact rationals (ℚ), `Math.floor`/`Math.ceil` as
`Int.floor`/`Int.ceil`, and the per-frame mutable loop state as explicit
state passing.  `Math.random`, `Math.sin` and `Math.cos` are modelled as
function parameters, so every theorem quantifies over the values they could
return.
-/

namespace Brat

/-- `config.animationStyle` values recognised by `renderChar`
(`'default' | 'typewriter' | 'glitch'`). -/
inductive AnimationStyle where
  | default
  | typewriter
  | glitch
deriving DecidableEq, Repr

/-- `config.glitchCharset` values recognised by the glitch branch; any other
value falls through to the symbols charset, which the `symbols` constructor
stands for. -/
inductive GlitchCharset where
  | symbols
  | letters
  | numbers
  | mixed
deriving DecidableEq, Repr

/-- The numeric/enum configuration fields of `config` that the render loops
read.  Optional fields that the code reads through `||` (falsy default) are
`Option`s here, with the falsy-zero case handled by the accessors below. -/
structure Config where
  fps : ℚ
  charsPerSecond : ℚ
  revealFrames : ℚ
  revealOffsetPx : ℚ
  endHold : Option ℚ := none
  jitter : ℚ := 0
  animationStyle : Option AnimationStyle := none
  glitchSpeed : Option ℚ := none
  glitchCharset : GlitchCharset := .symbols
deriving DecidableEq, Repr

/-- `config.animationStyle || 'default'` (an absent style means `default`). -/
def styleOf (c : Config) : AnimationStyle :=
  c.animationStyle.getD .default

/-- `config.endHold || 1.5`: JavaScript `||` replaces both an absent and a
zero (falsy) `endHold` by `1.5`. -/
def effEndHold (c : Config) : ℚ :=
  match c.endHold with
  | none => 3/2
  | some x => if x = 0 then 3/2 else x

/-- `config.glitchSpeed || 0.5`: absent or zero means `0.5`. -/
def effGlitchSpeed (c : Config) : ℚ :=
  match c.glitchSpeed with
  | none => 1/2
  | some x => if x = 0 then 1/2 else x

/-- The literal charset string chosen by the glitch branch of `renderChar`. -/
def charsetOf : GlitchCharset → String
  | .letters => "ABCDEFGHIJKLMNOPQRSTUVWXYZabcdefghijklmnopqrstuvwxyz"
  | .numbers => "0123456789"
  | .mixed => "ABCDEFGHIJKLMNOPQRSTUVWXYZabcdefghijklmnopqrstuvwxyz0123456789!@#$%^&*<>/?"
  | .symbols => "!@#$%^&*<>/?010101XY"

/-- `totalFrames = Math.ceil(totalDuration * fps)` with
`totalDuration = totalChars / charsPerSecond + (config.endHold || 1.5)`
(from `renderSegmentToStream`). -/
def totalFrames (c : Config) (totalChars : ℕ) : ℤ :=
  ⌈((totalChars : ℚ) / c.charsPerSecond + effEndHold c) * c.fps⌉

/-- `visibleCount = Math.min(totalChars, Math.floor(time * charsPerSecond))`
with `time = f / fps` (from `renderSegmentToStream`). -/
def visibleCount (c : Config) (totalChars : ℕ) (f : ℕ) : ℤ :=
  min (totalChars : ℤ) ⌊((f : ℚ) / c.fps) * c.charsPerSecond⌋

/-- `startFrame = (charObj.index / charsPerSecond) * fps`, the frame at which
a character's reveal animation is scheduled to start. -/
def startFrame (c : Config) (charIndex : ℕ) : ℚ :=
  ((charIndex : ℚ) / c.charsPerSecond) * c.fps

/-- Modelled from the spec: `easeOutCubic(t) = 1 - (1-t)^3` (the `utils`
module that exports it is not part of the sources; §4.2 of the spec gives the
formula). -/
def easeOutCubic (t : ℚ) : ℚ :=
  1 - (1 - t) ^ 3

/-- The draw parameters `renderChar` resolves for one character: `opacity`,
`xOffset` and `charToDraw`. -/
structure CharDraw where
  opacity : ℚ
  xOffset : ℚ
  charToDraw : Char
deriving DecidableEq, Repr

/-- The per-character reveal state machine `renderChar` from
`renderSegmentToStream` (the copy inside `renderTimelineToStream` is
identical except for the time-shifted `startFrame`, handled by the
`startF` argument).  `sin` and `cos` stand for `Math.sin`/`Math.cos`
evaluated at the integer `phase`. -/
def renderChar (sin cos : ℤ → ℚ) (c : Config) (vc : ℤ) (totalChars : ℕ)
    (charIndex : ℕ) (ch : Char) (startF : ℚ) (f : ℕ) (sampleProgress : ℚ) :
    CharDraw :=
  let frameWithSubstep : ℚ := (f : ℚ) + sampleProgress
  let progress : ℚ := (frameWithSubstep - startF) / c.revealFrames
  match styleOf c with
  | .default =>
    if (charIndex : ℤ) ≥ vc then
      ⟨0, 0, ch⟩
    else if (charIndex : ℤ) = vc - 1 ∧ vc < (totalChars : ℤ) then
      if progress < 1 ∧ progress > 0 then
        let eased := easeOutCubic progress
        ⟨eased, c.revealOffsetPx * (1 - eased), ch⟩
      else if progress ≤ 0 then
        ⟨0, 0, ch⟩
      else
        ⟨1, 0, ch⟩
    else
      ⟨1, 0, ch⟩
  | .typewriter =>
    if progress ≤ 0 then ⟨0, 0, ch⟩ else ⟨1, 0, ch⟩
  | .glitch =>
    if progress ≤ -1 then
      ⟨0, 0, ch⟩
    else if progress > -1 ∧ progress ≤ 3/2 then
      let cSet := charsetOf c.glitchCharset
      let speed := effGlitchSpeed c
      let phase : ℤ := ⌊(f : ℚ) * speed + (charIndex : ℚ) * (1337/100)⌋
      let r1 := sin phase * 10000
      let seed1 := r1 - ⌊r1⌋
      let r2 := cos phase * 10000
      let seed2 := r2 - ⌊r2⌋
      let glyph := cSet.toList.getD (⌊seed1 * (cSet.length : ℚ)⌋).toNat ch
      ⟨1, (seed2 - 1/2) * 6, glyph⟩
    else
      ⟨1, 0, ch⟩

/-- The mutable loop state of `renderSegmentToStream` that survives from one
frame to the next: `shakeTrauma` (initially `0`) and `lastVisibleCount`
(initially `-1`). -/
structure FrameState where
  shakeTrauma : ℚ
  lastVisibleCount : ℤ
deriving DecidableEq, Repr

/-- `let lastVisibleCount = -1; ... let shakeTrauma = 0;` before the loop. -/
def initState : FrameState :=
  ⟨0, -1⟩

/-- The shake update at the top of each frame: `shakeTrauma *= 0.9`, then if
the visible count changed and it is positive and `config.jitter > 0`,
`shakeTrauma = config.jitter`. -/
def shakeTraumaStep (c : Config) (vc lastVc : ℤ) (trauma : ℚ) : ℚ :=
  let decayed := trauma * (9/10)
  if vc ≠ lastVc ∧ 0 < vc ∧ 0 < c.jitter then c.jitter else decayed

/-- Everything the rasteriser is fed that can change from frame to frame in
a single-block render: the frame index, the visible-character count (which
determines both the laid-out text `text.substring(0, visibleCount)` and each
character's draw parameters through `renderChar`), and the shake
translation.  The pixel buffer written for the frame is a deterministic
function of this descriptor together with `(text, config)`. -/
structure FrameDesc where
  frameIndex : ℕ
  visibleCount : ℤ
  shakeX : ℚ
  shakeY : ℚ
deriving DecidableEq, Repr

/-- One iteration of the frame loop of `renderSegmentToStream`: computes the
visible count, updates the shake trauma, draws the shake translation from
the random source (`randX f`, `randY f` are the values `Math.random()` would
return on frame `f`) exactly when `shakeTrauma > 0.5`, and carries the
updated state to the next frame. -/
def frameStep (c : Config) (totalChars : ℕ) (randX randY : ℕ → ℚ) (f : ℕ)
    (st : FrameState) : FrameDesc × FrameState :=
  let vc := visibleCount c totalChars f
  let trauma := shakeTraumaStep c vc st.lastVisibleCount st.shakeTrauma
  let shakeX := if trauma > 1/2 then (randX f - 1/2) * trauma * 2 else 0
  let shakeY := if trauma > 1/2 then (randY f - 1/2) * trauma * 2 else 0
  let last := if vc ≠ st.lastVisibleCount then vc else st.lastVisibleCount
  (⟨f, vc, shakeX, shakeY⟩, ⟨trauma, last⟩)

/-- The loop state as it stands before frame `f` runs. -/
def stateAt (c : Config) (totalChars : ℕ) (randX randY : ℕ → ℚ) : ℕ → FrameState
  | 0 => initState
  | f + 1 => (frameStep c totalChars randX randY f
      (stateAt c totalChars randX randY f)).2

/-- The frame descriptor produced for frame `f`. -/
def frameAt (c : Config) (totalChars : ℕ) (randX randY : ℕ → ℚ) (f : ℕ) :
    FrameDesc :=
  (frameStep c totalChars randX randY f (stateAt c totalChars randX randY f)).1

/-- A timeline block (`{text, startTime, duration}`) as consumed by
`renderTimelineToStream`. -/
structure Block where
  text : String
  startTime : ℚ
  duration : ℚ
deriving DecidableEq, Repr

/-- `timelineData.sort((a, b) => a.startTime - b.startTime)` performed once
before the frame loop. -/
def sortBlocks (bs : List Block) : List Block :=
  bs.mergeSort fun a b => decide (a.startTime ≤ b.startTime)

/-- The activity test of the block-selection scan:
`time >= block.startTime && time <= block.startTime + block.duration`. -/
def blockActive (b : Block) (t : ℚ) : Bool :=
  decide (b.startTime ≤ t ∧ t ≤ b.startTime + b.duration)

/-- The block-selection scan of `renderTimelineToStream`: walk the sorted
list in order and `break` at the first block active at time `t`
(`none` when no block is active, in which case only the background is
drawn for the frame). -/
def findActiveBlock (bs : List Block) (t : ℚ) : Option Block :=
  (sortBlocks bs).find? fun b => blockActive b t

/-- `blockCharsPerSecond = totalChars / block.duration` — the reveal speed
`renderTimelineToStream` derives for the active block. -/
def blockCharsPerSecond (b : Block) : ℚ :=
  (b.text.length : ℚ) / b.duration

/-- The active block at frame `f` (`time = f / fps`). -/
def timelineActiveAt (fps : ℚ) (bs : List Block) (f : ℕ) : Option Block :=
  findActiveBlock bs ((f : ℚ) / fps)

/-- The time-shifted reveal origin used by the timeline copy of
`renderChar`:
`startFrame = (charObj.index / blockCharsPerSecond) * fps + block.startTime * fps`. -/
def timelineStartFrame (fps : ℚ) (b : Block) (charIndex : ℕ) : ℚ :=
  ((charIndex : ℚ) / blockCharsPerSecond b) * fps + b.startTime * fps

/-- `visibleCount` inside an active timeline block:
`Math.min(totalChars, Math.floor(localTime * blockCharsPerSecond))` with
`localTime = time - block.startTime`. -/
def blockVisibleCount (fps : ℚ) (b : Block) (f : ℕ) : ℤ :=
  min (b.text.length : ℤ) ⌊((f : ℚ) / fps - b.startTime) * blockCharsPerSecond b⌋

/-- One observable interaction of the render loop with the output stream:
either the write of frame `n`, or the suspension on `once('drain')` that
follows a backpressured write of frame `n`. -/
inductive EmitEvent where
  | frame (n : ℕ)
  | drainWait (n : ℕ)
deriving DecidableEq, Repr

/-- The stream events of one loop iteration:
`const drained = stream.write(buffer); if (!drained) await once('drain')`.
`drained n` is the boolean the stream returns for frame `n`. -/
def emitEvents (drained : ℕ → Bool) (n : ℕ) : List EmitEvent :=
  if drained n then [.frame n] else [.frame n, .drainWait n]

/-- The full stream-event trace of a render loop over frames `0..n-1` —
frame `n-1`'s events come last because the loop is strictly sequential. -/
def emitTrace (drained : ℕ → Bool) : ℕ → List EmitEvent
  | 0 => []
  | n + 1 => emitTrace drained n ++ emitEvents drained n

/-- Projection extracting the frame index of a write event. -/
def frameIdx : EmitEvent → Option ℕ
  | .frame n => some n
  | .drainWait _ => none

/-- `path.join(dir, name)` for the candidate names built by
`getUniqueOutputPath` (the platform separator modelled as `/`). -/
def pathJoin (dir name : String) : String :=
  dir ++ "/" ++ name

/-- The do-while loop of `getUniqueOutputPath`: try
`` `${base}_${counter}${ext}` `` for `counter = 1, 2, …` until the name is
free.  The filesystem is the list `fs` of existing paths
(`fs.existsSync`); the explicit fuel bounds the search, which in the real
code ends because the filesystem is finite. -/
def findFreeCandidate (fs : List String) (dir base ext : String) :
    ℕ → ℕ → Option String
  | 0, _ => none
  | fuel + 1, counter =>
    let candidate := pathJoin dir (base ++ "_" ++ toString counter ++ ext)
    if candidate ∈ fs then findFreeCandidate fs dir base ext fuel (counter + 1)
    else some candidate

/-- `getUniqueOutputPath`: the path itself when free, otherwise the first
free `` `${base}_${counter}${ext}` `` candidate. -/
def getUniqueOutputPath (fs : List String) (dir base ext : String) :
    Option String :=
  if pathJoin dir (base ++ ext) ∈ fs then
    findFreeCandidate fs dir base ext (fs.length + 1) 1
  else some (pathJoin dir (base ++ ext))

/-- The failure value `renderVideo` rejects with:
`new Error(⟨FFmpeg error ${code}⟩)`, carrying the encoder's exit code. -/
inductive RenderError where
  | ffmpegError (code : ℤ)
deriving DecidableEq, Repr

/-- The completion behaviour of `renderVideo`: dedup the output path, then
resolve with it when the encoder's `close` code is `0` and reject with the
code otherwise.  (`none` models the unreachable fuel exhaustion of the
dedup search.) -/
def renderVideo (fs : List String) (dir base ext : String) (exitCode : ℤ) :
    Option (Except RenderError String) :=
  (getUniqueOutputPath fs dir base ext).map fun out =>
    if exitCode = 0 then .ok out else .error (.ffmpegError exitCode)

/-- The glitch substitution pair exactly as the spec's formula reads:
`phase = floor(frameIndex·glitchSpeed + charIndex·13.37)`,
`seed1 = frac(sin(phase)·10000)`, `seed2 = frac(cos(phase)·10000)`,
glyph `charset[floor(seed1·len(charset))]` and
`xOffset = (seed2 - 0.5)·6` — a pure function of
`(frameIndex, charIndex, glitchSpeed, glitchCharset)` once `sin`/`cos` are
fixed.  Stated separately from `renderChar` so the code's branch can be
compared against it. -/
def glitchSubSpec (sin cos : ℤ → ℚ) (f charIndex : ℕ) (speed : ℚ)
    (cs : GlitchCharset) : Char × ℚ :=
  let cSet := charsetOf cs
  let phase : ℤ := ⌊(f : ℚ) * speed + (charIndex : ℚ) * (1337/100)⌋
  let seed1 := Int.fract (sin phase * 10000)
  let seed2 := Int.fract (cos phase * 10000)
  (cSet.toList.getD (⌊seed1 * (cSet.length : ℚ)⌋).toNat ' ', (seed2 - 1/2) * 6)

/-- A concrete configuration (the spec's worked example: 30 fps, 10 chars/s,
3 reveal frames, 1.5 s end hold) used as witness input. -/
def cfgA : Config :=
  { fps := 30, charsPerSecond := 10, revealFrames := 3, revealOffsetPx := 18,
    endHold := some (3/2) }

/-- A slow-typing configuration (1 char/s at 30 fps): a character's reveal
animation finishes many frames before the character even becomes visible. -/
def cfgB : Config :=
  { fps := 30, charsPerSecond := 1, revealFrames := 3, revealOffsetPx := 18 }

/-- A glitch-style configuration. -/
def cfgG : Config :=
  { fps := 30, charsPerSecond := 10, revealFrames := 3, revealOffsetPx := 18,
    animationStyle := some .glitch, glitchSpeed := some (1/2) }

lemma floor_rat_min (a b : ℚ) : ⌊min a b⌋ = min ⌊a⌋ ⌊b⌋ := by
  rcases le_total a b with h | h
  · rw [min_eq_left h, min_eq_left (Int.floor_le_floor h)]
  · rw [min_eq_right h, min_eq_right (Int.floor_le_floor h)]

/-- C1: for frames of a single-block render, the visible-character count of
`renderSegmentToStream` equals `min(totalChars, ⌊(f/fps)·charsPerSecond⌋)`,
which — `totalChars` being an integer — equals the spec's
`⌊min(totalChars, (f/fps)·charsPerSecond)⌋`, and it is monotonically
non-decreasing in the frame index for a fixed configuration. -/
theorem visibleCount_spec (c : Config) (tc : ℕ)
    (hfps : 0 < c.fps) (hcps : 0 < c.charsPerSecond) (f g : ℕ)
    (hf : (f : ℤ) < totalFrames c tc) (hg : (g : ℤ) < totalFrames c tc)
    (hfg : f ≤ g) :
    visibleCount c tc f = min (tc : ℤ) ⌊((f : ℚ) / c.fps) * c.charsPerSecond⌋
    ∧ visibleCount c tc f
        = ⌊min (tc : ℚ) (((f : ℚ) / c.fps) * c.charsPerSecond)⌋
    ∧ visibleCount c tc f ≤ visibleCount c tc g := by
  refine ⟨rfl, ?_, ?_⟩
  · rw [visibleCount, floor_rat_min, Int.floor_natCast]
  · apply min_le_min le_rfl
    apply Int.floor_le_floor
    have hq : (f : ℚ) ≤ (g : ℚ) := by exact_mod_cast hfg
    gcongr

/-- Witness for C1 at the spec's worked example, frames 2 ≤ 3. -/
theorem visibleCount_spec_witness :
    (0 < cfgA.fps ∧ 0 < cfgA.charsPerSecond ∧ (2 : ℤ) < totalFrames cfgA 20
      ∧ (3 : ℤ) < totalFrames cfgA 20 ∧ 2 ≤ 3)
    ∧ (visibleCount cfgA 20 2
          = min (20 : ℤ) ⌊((2 : ℚ) / cfgA.fps) * cfgA.charsPerSecond⌋
      ∧ visibleCount cfgA 20 2
          = ⌊min (20 : ℚ) (((2 : ℚ) / cfgA.fps) * cfgA.charsPerSecond)⌋
      ∧ visibleCount cfgA 20 2 ≤ visibleCount cfgA 20 3) :=
  ⟨by norm_num [cfgA, totalFrames, effEndHold],
   visibleCount_spec cfgA 20 (by norm_num [cfgA]) (by norm_num [cfgA]) 2 3
     (by norm_num [cfgA, totalFrames, effEndHold])
     (by norm_num [cfgA, totalFrames, effEndHold]) (by norm_num)⟩

/-- The worked-example configuration with an explicitly zero `endHold`. -/
def cfgE0 : Config :=
  { fps := 30, charsPerSecond := 10, revealFrames := 3, revealOffsetPx := 18,
    endHold := some 0 }

/-- C6 counterexample: `endHold` present but equal to `0` is falsy in
`config.endHold || 1.5`, so the code still holds 1.5 s (105 frames for the
worked example) where the claim's formula demands 60 frames. -/
theorem totalFrames_endHold_zero_cex :
    totalFrames cfgE0 20 = 105
    ∧ (⌈(((20 : ℕ) : ℚ) / 10 + 0) * 30⌉ : ℤ) = 60 := by
  norm_num [cfgE0, totalFrames, effEndHold]

/-- C6 amended: a single-block render produces exactly
`⌈(totalChars/charsPerSecond + endHold)·fps⌉` frames, where `endHold` falls
back to `1.5` when absent or when set to `0` (a falsy value); in particular
the worked example (10 chars/s, 20 chars, 1.5 s hold, 30 fps) yields exactly
105 frames. -/
theorem totalFrames_spec (c : Config) (tc : ℕ) :
    totalFrames c tc
      = ⌈((tc : ℚ) / c.charsPerSecond
          + (match c.endHold with
             | none => 3/2
             | some x => if x = 0 then 3/2 else x)) * c.fps⌉
    ∧ totalFrames cfgA 20 = 105 :=
  ⟨rfl, by norm_num [cfgA, totalFrames, effEndHold]⟩

/-- C2 counterexample: at 1 char/s and 30 fps, character 0's reveal window
(`startFrame 0 + revealFrames = 3`) has elapsed by frame 3, yet the
character is not visible (`visibleCount = ⌊0.1⌋ = 0`), so `renderChar`
resolves opacity `0`, not `1`. -/
theorem renderChar_default_settled_cex :
    startFrame cfgB 0 + cfgB.revealFrames ≤ ((3 : ℕ) : ℚ)
    ∧ (renderChar (fun _ => 0) (fun _ => 0) cfgB (visibleCount cfgB 1 3) 1 0
        'a' (startFrame cfgB 0) 3 0).opacity ≠ 1 := by
  constructor
  · norm_num [startFrame, cfgB]
  · norm_num [renderChar, styleOf, cfgB, visibleCount, startFrame]

/-- C2 amended: for the default animation style, every character that is
already within the visible count (`charIndex < visibleCount`) and whose
reveal window has elapsed (`frameIndex ≥ startFrame(charIndex) +
revealFrames`) is drawn fully opaque at its rest position: resolved opacity
exactly `1`, `xOffset` exactly `0`, and the glyph unchanged. -/
theorem renderChar_default_settled (sin cos : ℤ → ℚ) (c : Config) (tc : ℕ)
    (charIndex : ℕ) (ch : Char) (f : ℕ)
    (hstyle : styleOf c = .default) (hrf : 0 < c.revealFrames)
    (hvis : (charIndex : ℤ) < visibleCount c tc f)
    (hsettle : startFrame c charIndex + c.revealFrames ≤ (f : ℚ)) :
    renderChar sin cos c (visibleCount c tc f) tc charIndex ch
        (startFrame c charIndex) f 0 = ⟨1, 0, ch⟩ := by
  have hvc : ¬ ((charIndex : ℤ) ≥ visibleCount c tc f) := not_le.mpr hvis
  have hprog : (1 : ℚ)
      ≤ ((f : ℚ) + 0 - startFrame c charIndex) / c.revealFrames := by
    rw [add_zero, le_div_iff₀ hrf, one_mul]
    linarith
  simp only [renderChar, hstyle]
  rw [if_neg hvc]
  split_ifs with h1 h2 h3
  · linarith [h2.1]
  · linarith
  · rfl
  · rfl

/-- Witness for C2 at the worked example: char 0 is visible and settled at
frame 3. -/
theorem renderChar_default_settled_witness :
    (styleOf cfgA = .default ∧ 0 < cfgA.revealFrames
      ∧ (0 : ℤ) < visibleCount cfgA 20 3
      ∧ startFrame cfgA 0 + cfgA.revealFrames ≤ ((3 : ℕ) : ℚ))
    ∧ renderChar (fun _ => 0) (fun _ => 0) cfgA (visibleCount cfgA 20 3) 20 0
        'a' (startFrame cfgA 0) 3 0 = ⟨1, 0, 'a'⟩ :=
  ⟨⟨by decide, by norm_num [cfgA], by norm_num [visibleCount, cfgA],
     by norm_num [startFrame, cfgA]⟩,
   renderChar_default_settled (fun _ => 0) (fun _ => 0) cfgA 20 0 'a' 3
     (by decide) (by norm_num [cfgA]) (by norm_num [visibleCount, cfgA])
     (by norm_num [startFrame, cfgA])⟩

lemma stateAt_rand_irrel (c : Config) (tc : ℕ) (rX rY rX' rY' : ℕ → ℚ)
    (f : ℕ) : stateAt c tc rX rY f = stateAt c tc rX' rY' f := by
  induction f with
  | zero => rfl
  | succ f ih =>
    rw [stateAt, stateAt, ih]
    rfl

lemma shakeTrauma_bounds (c : Config) (tc : ℕ) (rX rY : ℕ → ℚ) (f : ℕ) :
    0 ≤ (stateAt c tc rX rY f).shakeTrauma
    ∧ (stateAt c tc rX rY f).shakeTrauma ≤ max c.jitter 0 := by
  induction f with
  | zero => exact ⟨le_refl 0, le_max_right _ _⟩
  | succ f ih =>
    obtain ⟨h0, h1⟩ := ih
    have hstep : (stateAt c tc rX rY (f + 1)).shakeTrauma
        = shakeTraumaStep c (visibleCount c tc f)
            (stateAt c tc rX rY f).lastVisibleCount
            (stateAt c tc rX rY f).shakeTrauma := rfl
    rw [hstep]
    simp only [shakeTraumaStep]
    split_ifs with h
    · exact ⟨le_of_lt h.2.2, le_max_left _ _⟩
    · refine ⟨by positivity, le_trans (by linarith) h1⟩

lemma frameAt_eq_of_no_shake (c : Config) (tc : ℕ) (rX rY : ℕ → ℚ) (f : ℕ)
    (h : ¬ ((stateAt c tc rX rY (f + 1)).shakeTrauma > 1/2)) :
    frameAt c tc rX rY f = ⟨f, visibleCount c tc f, 0, 0⟩ := by
  have h' : ¬ (shakeTraumaStep c (visibleCount c tc f)
      (stateAt c tc rX rY f).lastVisibleCount
      (stateAt c tc rX rY f).shakeTrauma > 1/2) := h
  simp only [frameAt, frameStep]
  rw [if_neg h', if_neg h']

/-- C3: in a single-block render with `jitter = 0`, the shake trauma is `0`
on every frame, the reset condition never fires, the random shake branch is
never taken (the shake translation is `(0, 0)`), and the per-frame
descriptor — everything the rasteriser consumes that varies per frame — is
the same whatever values `Math.random` returns, so two renders of the same
`(text, config)` produce byte-identical frame sequences. -/
theorem render_deterministic (c : Config) (tc : ℕ) (rX rY rX' rY' : ℕ → ℚ)
    (hj : c.jitter = 0) (f : ℕ) :
    (stateAt c tc rX rY (f + 1)).shakeTrauma = 0
    ∧ (∀ vc last : ℤ, ¬ (vc ≠ last ∧ 0 < vc ∧ 0 < c.jitter))
    ∧ (frameAt c tc rX rY f).shakeX = 0
    ∧ (frameAt c tc rX rY f).shakeY = 0
    ∧ frameAt c tc rX rY f = frameAt c tc rX' rY' f := by
  have hmax : max c.jitter 0 = 0 := by rw [hj, max_self]
  have ht : ∀ g : ℕ, (stateAt c tc rX rY g).shakeTrauma = 0 := fun g =>
    le_antisymm (hmax ▸ (shakeTrauma_bounds c tc rX rY g).2)
      (shakeTrauma_bounds c tc rX rY g).1
  have hnot : ¬ ((stateAt c tc rX rY (f + 1)).shakeTrauma > 1/2) := by
    rw [ht (f + 1)]
    norm_num
  have hnot' : ¬ ((stateAt c tc rX' rY' (f + 1)).shakeTrauma > 1/2) := by
    rw [stateAt_rand_irrel c tc rX' rY' rX rY (f + 1), ht (f + 1)]
    norm_num
  have hzero := frameAt_eq_of_no_shake c tc rX rY f hnot
  refine ⟨ht (f + 1), ?_, ?_, ?_, ?_⟩
  · intro vc last hcon
    rw [hj] at hcon
    exact lt_irrefl 0 hcon.2.2
  · rw [hzero]
  · rw [hzero]
  · rw [hzero, frameAt_eq_of_no_shake c tc rX' rY' f hnot']

/-- Witness for C3 at the worked example with two unequal random sources. -/
theorem render_deterministic_witness :
    cfgA.jitter = 0
    ∧ ((stateAt cfgA 20 (fun _ => 1) (fun _ => 1) 6).shakeTrauma = 0
      ∧ (∀ vc last : ℤ, ¬ (vc ≠ last ∧ 0 < vc ∧ 0 < cfgA.jitter))
      ∧ (frameAt cfgA 20 (fun _ => 1) (fun _ => 1) 5).shakeX = 0
      ∧ (frameAt cfgA 20 (fun _ => 1) (fun _ => 1) 5).shakeY = 0
      ∧ frameAt cfgA 20 (fun _ => 1) (fun _ => 1) 5
          = frameAt cfgA 20 (fun _ => 0) (fun _ => 0) 5) :=
  ⟨by norm_num [cfgA],
   render_deterministic cfgA 20 (fun _ => 1) (fun _ => 1) (fun _ => 0)
     (fun _ => 0) (by norm_num [cfgA]) 5⟩

/-- C8: on every frame of a single-block render the trauma recurrence is:
decay by `0.9`, then reset to `jitter` exactly when the visible count
changed, the new count is positive and `jitter > 0`; and the shake
translation applied to the text layer is
`((rand - 0.5)·trauma·2, (rand - 0.5)·trauma·2)` exactly when the resulting
trauma exceeds `0.5`, and `(0, 0)` otherwise. -/
theorem shake_update_spec (c : Config) (tc : ℕ) (rX rY : ℕ → ℚ) (f : ℕ) :
    ((stateAt c tc rX rY (f + 1)).shakeTrauma =
      if visibleCount c tc f ≠ (stateAt c tc rX rY f).lastVisibleCount
          ∧ 0 < visibleCount c tc f ∧ 0 < c.jitter
        then c.jitter
        else (stateAt c tc rX rY f).shakeTrauma * (9/10))
    ∧ ((frameAt c tc rX rY f).shakeX =
        if (stateAt c tc rX rY (f + 1)).shakeTrauma > 1/2
          then (rX f - 1/2) * (stateAt c tc rX rY (f + 1)).shakeTrauma * 2
          else 0)
    ∧ ((frameAt c tc rX rY f).shakeY =
        if (stateAt c tc rX rY (f + 1)).shakeTrauma > 1/2
          then (rY f - 1/2) * (stateAt c tc rX rY (f + 1)).shakeTrauma * 2
          else 0) :=
  ⟨rfl, rfl, rfl⟩

/-- The mutable loop state of `renderTimelineToStream` that survives from
one frame to the next: `shakeTrauma` (initially `0`), `lastVisibleCount`
(initially `-1`) and `activeBlockIndex` (initially `-1`). -/
structure TimelineState where
  shakeTrauma : ℚ
  lastVisibleCount : ℤ
  activeBlockIndex : ℤ
deriving DecidableEq, Repr

/-- What the timeline rasteriser is fed on one frame: the frame index, the
active block index (`-1` = no block, background only, nothing else drawn so
the shake fields are `0`), the block-local visible count, and the shake
translation. -/
structure TimelineFrameDesc where
  frameIndex : ℕ
  activeBlockIndex : ℤ
  visibleCount : ℤ
  shakeX : ℚ
  shakeY : ℚ
deriving DecidableEq, Repr

/-- The block-selection scan of `renderTimelineToStream` as an index:
`currentBlockIndex` starts at `-1` and takes the index of the first block of
the (sorted) list active at `time`. -/
def currentBlockIdx (sorted : List Block) (t : ℚ) : ℤ :=
  match sorted.findIdx? (fun b => blockActive b t) with
  | some i => (i : ℤ)
  | none => -1

/-- `timelineData[activeBlockIndex]` (the fallback is never reached when the
index came from a successful scan). -/
def blockAtIdx (sorted : List Block) (i : ℤ) : Block :=
  (sorted.get? i.toNat).getD ⟨"", 0, 0⟩

/-- The active block's visible count at frame `f`:
`Math.min(totalChars, Math.floor(localTime * blockCharsPerSecond))` with
`localTime = time - block.startTime` (part of the active branch of the
timeline loop). -/
def timelineVC (c : Config) (sorted : List Block) (f : ℕ) : ℤ :=
  let t : ℚ := (f : ℚ) / c.fps
  let b := blockAtIdx sorted (currentBlockIdx sorted t)
  min (b.text.length : ℤ) ⌊(t - b.startTime) * blockCharsPerSecond b⌋

/-- The timeline loop's trauma update: `shakeTrauma *= 0.9`, then
`if (visibleCount !== lastVisibleCount || isNewBlock)` and
`visibleCount > 0 && jitter > 0`, reset to `jitter` — with
`isNewBlock = currentBlockIndex !== -1 && currentBlockIndex !==
activeBlockIndex` against the previous frame's `activeBlockIndex`. -/
def timelineTraumaStep (c : Config) (vc : ℤ) (st : TimelineState) (idx : ℤ) :
    ℚ :=
  let isNewBlock := idx ≠ -1 ∧ idx ≠ st.activeBlockIndex
  let decayed := st.shakeTrauma * (9/10)
  if (vc ≠ st.lastVisibleCount ∨ isNewBlock) ∧ 0 < vc ∧ 0 < c.jitter
  then c.jitter else decayed

/-- One iteration of the frame loop of `renderTimelineToStream`: scan for
the active block; when one is active, compute the block-local visible count,
update the trauma (`timelineTraumaStep`), draw the shake translation exactly
when the resulting trauma exceeds `0.5`, and remember the visible count and
block index; when none is active, draw background only — the trauma and
`lastVisibleCount` are left untouched (no decay on block-less frames) and
`activeBlockIndex` becomes `-1`. -/
def timelineStep (c : Config) (sorted : List Block) (randX randY : ℕ → ℚ)
    (f : ℕ) (st : TimelineState) : TimelineFrameDesc × TimelineState :=
  let t : ℚ := (f : ℚ) / c.fps
  let idx := currentBlockIdx sorted t
  if idx ≠ -1 then
    let vc := timelineVC c sorted f
    let trauma := timelineTraumaStep c vc st idx
    let shakeX := if trauma > 1/2 then (randX f - 1/2) * trauma * 2 else 0
    let shakeY := if trauma > 1/2 then (randY f - 1/2) * trauma * 2 else 0
    let last :=
      if vc ≠ st.lastVisibleCount ∨ (idx ≠ -1 ∧ idx ≠ st.activeBlockIndex)
      then vc else st.lastVisibleCount
    (⟨f, idx, vc, shakeX, shakeY⟩, ⟨trauma, last, idx⟩)
  else
    (⟨f, -1, 0, 0, 0⟩, ⟨st.shakeTrauma, st.lastVisibleCount, idx⟩)

/-- The timeline loop state as it stands before frame `f` runs (the block
list is sorted once, before the loop). -/
def timelineStateAt (c : Config) (bs : List Block) (randX randY : ℕ → ℚ) :
    ℕ → TimelineState
  | 0 => ⟨0, -1, -1⟩
  | f + 1 => (timelineStep c (sortBlocks bs) randX randY f
      (timelineStateAt c bs randX randY f)).2

/-- The timeline frame descriptor produced for frame `f`. -/
def timelineFrameAt (c : Config) (bs : List Block) (randX randY : ℕ → ℚ)
    (f : ℕ) : TimelineFrameDesc :=
  (timelineStep c (sortBlocks bs) randX randY f
    (timelineStateAt c bs randX randY f)).1

/-- The worked-example configuration with jitter `0.4`. -/
def cfgJ : Config :=
  { cfgA with jitter := 2/5 }

lemma timelineStateAt_rand_irrel (c : Config) (bs : List Block)
    (rX rY rX' rY' : ℕ → ℚ) (f : ℕ) :
    timelineStateAt c bs rX rY f = timelineStateAt c bs rX' rY' f := by
  induction f with
  | zero => rfl
  | succ f ih =>
    rw [timelineStateAt, timelineStateAt, ih]
    by_cases h : currentBlockIdx (sortBlocks bs) ((f : ℚ) / c.fps) ≠ -1
    · simp only [timelineStep, if_pos h]
    · simp only [timelineStep, if_neg h]

lemma timelineTrauma_bounds (c : Config) (bs : List Block)
    (rX rY : ℕ → ℚ) (f : ℕ) :
    0 ≤ (timelineStateAt c bs rX rY f).shakeTrauma
    ∧ (timelineStateAt c bs rX rY f).shakeTrauma ≤ max c.jitter 0 := by
  induction f with
  | zero => exact ⟨le_refl 0, le_max_right _ _⟩
  | succ f ih =>
    obtain ⟨h0, h1⟩ := ih
    rw [timelineStateAt]
    by_cases h : currentBlockIdx (sortBlocks bs) ((f : ℚ) / c.fps) ≠ -1
    · simp only [timelineStep, if_pos h, timelineTraumaStep]
      split_ifs with hr
      · exact ⟨le_of_lt hr.2.2, le_max_left _ _⟩
      · exact ⟨by positivity, le_trans (by linarith) h1⟩
    · simp only [timelineStep, if_neg h]
      exact ⟨h0, h1⟩

lemma timelineFrame_no_shake (c : Config) (bs : List Block)
    (rX rY rX' rY' : ℕ → ℚ) (f : ℕ)
    (h : ¬ ((timelineStateAt c bs rX rY (f + 1)).shakeTrauma > 1/2)) :
    (timelineFrameAt c bs rX rY f).shakeX = 0
    ∧ (timelineFrameAt c bs rX rY f).shakeY = 0
    ∧ timelineFrameAt c bs rX rY f = timelineFrameAt c bs rX' rY' f := by
  have e := timelineStateAt_rand_irrel c bs rX rY rX' rY' f
  rw [timelineFrameAt, timelineFrameAt, ← e]
  by_cases hidx : currentBlockIdx (sortBlocks bs) ((f : ℚ) / c.fps) ≠ -1
  · have hst : (timelineStateAt c bs rX rY (f + 1)).shakeTrauma
        = timelineTraumaStep c (timelineVC c (sortBlocks bs) f)
            (timelineStateAt c bs rX rY f)
            (currentBlockIdx (sortBlocks bs) ((f : ℚ) / c.fps)) := by
      rw [timelineStateAt]
      simp only [timelineStep, if_pos hidx]
    rw [hst] at h
    simp only [timelineStep, if_pos hidx, if_neg h]
    exact ⟨trivial, trivial, trivial⟩
  · simp only [timelineStep, if_neg hidx]
    exact ⟨trivial, trivial, trivial⟩

lemma charsetOf_length_pos (cs : GlitchCharset) :
    0 < (charsetOf cs).toList.length := by
  cases cs <;> decide

lemma glitch_index_lt (x : ℚ) (cs : GlitchCharset) :
    (⌊Int.fract x * ((charsetOf cs).length : ℚ)⌋).toNat
      < (charsetOf cs).toList.length := by
  have hlen : 0 < (charsetOf cs).toList.length := charsetOf_length_pos cs
  have heq : (charsetOf cs).length = (charsetOf cs).toList.length := rfl
  have hlen' : (0 : ℚ) < ((charsetOf cs).length : ℚ) := by
    rw [heq]
    exact_mod_cast hlen
  have h0 : 0 ≤ ⌊Int.fract x * ((charsetOf cs).length : ℚ)⌋ :=
    Int.floor_nonneg.mpr (mul_nonneg (Int.fract_nonneg x) hlen'.le)
  have hlt : ⌊Int.fract x * ((charsetOf cs).length : ℚ)⌋
      < ((charsetOf cs).length : ℤ) := by
    rw [Int.floor_lt]
    push_cast
    calc Int.fract x * ((charsetOf cs).length : ℚ)
        < 1 * ((charsetOf cs).length : ℚ) :=
          mul_lt_mul_of_pos_right (Int.fract_lt_one x) hlen'
      _ = ((charsetOf cs).length : ℚ) := one_mul _
  rw [← heq]
  omega

/-- C4: in the glitch style, whenever the reveal progress lies in
`(-1, 1.5]`, `renderChar` forces opacity `1` and draws exactly the glyph and
horizontal offset given by the spec's seed formula `glitchSubSpec` — a pure
function of `(frameIndex, charIndex, glitchSpeed, glitchCharset)` (and the
fixed `sin`/`cos`), independent of the character itself, the visible count
and the total count, so identical inputs always select the same substituted
glyph and offset; and a character with progress ≤ `-1` resolves opacity `0`
(hidden). -/
theorem renderChar_glitch_spec (sin cos : ℤ → ℚ) (c : Config) (vc : ℤ)
    (tc : ℕ) (charIndex : ℕ) (ch : Char) (startF : ℚ) (f : ℕ)
    (sampleProgress : ℚ) (g : ℕ) (sHide : ℚ)
    (hstyle : styleOf c = .glitch)
    (h1 : -1 < ((f : ℚ) + sampleProgress - startF) / c.revealFrames)
    (h2 : ((f : ℚ) + sampleProgress - startF) / c.revealFrames ≤ 3/2)
    (hhide : ((g : ℚ) + sHide - startF) / c.revealFrames ≤ -1) :
    renderChar sin cos c vc tc charIndex ch startF f sampleProgress
      = ⟨1,
         (glitchSubSpec sin cos f charIndex (effGlitchSpeed c)
            c.glitchCharset).2,
         (glitchSubSpec sin cos f charIndex (effGlitchSpeed c)
            c.glitchCharset).1⟩
    ∧ (renderChar sin cos c vc tc charIndex ch startF g sHide).opacity
        = 0 := by
  constructor
  · have hn1 : ¬ (((f : ℚ) + sampleProgress - startF) / c.revealFrames
        ≤ -1) := not_le.mpr h1
    simp only [renderChar, hstyle]
    rw [if_neg hn1, if_pos ⟨h1, h2⟩]
    simp only [glitchSubSpec, Int.fract]
    refine congrArg (CharDraw.mk 1 _) ?_
    have hb := glitch_index_lt
      (sin ⌊(f : ℚ) * effGlitchSpeed c + (charIndex : ℚ) * (1337/100)⌋
        * 10000) c.glitchCharset
    simp only [Int.fract] at hb
    rw [List.getD_eq_getElem _ _ hb, List.getD_eq_getElem _ _ hb]
  · simp only [renderChar, hstyle]
    rw [if_pos hhide]

/-- Witness for C4 with `sin = 1/3`, `cos = 2/3` constant oracles: frame 0,
char 0 at progress 0 is substituted; frame 0 at sub-step `-9` is hidden. -/
theorem renderChar_glitch_spec_witness :
    (styleOf cfgG = .glitch
      ∧ -1 < (((0 : ℕ) : ℚ) + 0 - 0) / cfgG.revealFrames
      ∧ (((0 : ℕ) : ℚ) + 0 - 0) / cfgG.revealFrames ≤ 3/2
      ∧ (((0 : ℕ) : ℚ) + (-9) - 0) / cfgG.revealFrames ≤ -1)
    ∧ (renderChar (fun _ => 1/3) (fun _ => 2/3) cfgG 0 2 0 'a' 0 0 0
        = ⟨1,
           (glitchSubSpec (fun _ => 1/3) (fun _ => 2/3) 0 0
              (effGlitchSpeed cfgG) cfgG.glitchCharset).2,
           (glitchSubSpec (fun _ => 1/3) (fun _ => 2/3) 0 0
              (effGlitchSpeed cfgG) cfgG.glitchCharset).1⟩
      ∧ (renderChar (fun _ => 1/3) (fun _ => 2/3) cfgG 0 2 0 'a' 0 0
          (-9)).opacity = 0) :=
  ⟨⟨by decide, by norm_num [cfgG], by norm_num [cfgG], by norm_num [cfgG]⟩,
   renderChar_glitch_spec (fun _ => 1/3) (fun _ => 2/3) cfgG 0 2 0 'a' 0 0 0
     0 (-9) (by decide) (by norm_num [cfgG]) (by norm_num [cfgG])
     (by norm_num [cfgG])⟩

/-- The spec's timeline example:
`[{text:"AB",start:0,duration:2},{text:"CD",start:3,duration:2}]`. -/
def exBlocks : List Block :=
  [⟨"AB", 0, 2⟩, ⟨"CD", 3, 2⟩]

lemma find?_first {α : Type} (p : α → Bool) (l1 l2 : List α) (b : α)
    (h1 : ∀ x ∈ l1, p x = false) (hb : p b = true) :
    (l1 ++ b :: l2).find? p = some b := by
  induction l1 with
  | nil => simpa using List.find?_cons_of_pos l2 hb
  | cons a l ih =>
    rw [List.cons_append,
      List.find?_cons_of_neg _ (by simp [h1 a (List.mem_cons_self a l)])]
    exact ih fun x hx => h1 x (List.mem_cons_of_mem a hx)

lemma sortBlocks_ex : sortBlocks exBlocks = exBlocks := by
  apply List.mergeSort_of_sorted
  norm_num [exBlocks, List.pairwise_cons]

lemma timeline_ex_t25 : timelineActiveAt 2 exBlocks 5 = none := by
  have hAB : blockActive ⟨"AB", 0, 2⟩ (((5 : ℕ) : ℚ) / 2) = false := by
    simp only [blockActive, decide_eq_false_iff_not]
    intro hcon
    norm_num at hcon
  have hCD : blockActive ⟨"CD", 3, 2⟩ (((5 : ℕ) : ℚ) / 2) = false := by
    simp only [blockActive, decide_eq_false_iff_not]
    intro hcon
    norm_num at hcon
  rw [timelineActiveAt, findActiveBlock, sortBlocks_ex]
  simp only [exBlocks, List.find?]
  rw [hAB, hCD]

lemma timeline_ex_t1 : timelineActiveAt 2 exBlocks 2 = some ⟨"AB", 0, 2⟩ := by
  have hAB : blockActive ⟨"AB", 0, 2⟩ (((2 : ℕ) : ℚ) / 2) = true := by
    simp only [blockActive, decide_eq_true_eq]
    norm_num
  rw [timelineActiveAt, findActiveBlock, sortBlocks_ex]
  simp only [exBlocks, List.find?]
  rw [hAB]

lemma bcps_AB : blockCharsPerSecond ⟨"AB", 0, 2⟩ = 1 := by
  have hlen : ("AB" : String).length = 2 := rfl
  rw [blockCharsPerSecond]
  simp only [hlen]
  norm_num

/-- C5: in timeline mode the block list is sorted by `startTime` once, and
per frame time `t = f/fps` the loop activates the first block (in sorted
order) with `startTime ≤ t ≤ startTime + duration`; the selected block is
always active at `t`; no block is selected exactly when no block is active
(background-only frame); the reveal speed used for the selected block is
`len(text)/duration`; and on the spec's example at `t = 2.5` no block is
active while at `t = 1` block 0 (`"AB"`) is active with
`blockCharsPerSecond = 1`. -/
theorem timeline_sequencer_spec (bs : List Block) (t : ℚ)
    (l1 l2 : List Block) (b : Block)
    (hpre : ∀ x ∈ l1, blockActive x t = false)
    (hb : blockActive b t = true)
    (hdec : sortBlocks bs = l1 ++ b :: l2) :
    findActiveBlock bs t = some b
    ∧ (∀ x : Block, findActiveBlock bs t = some x → blockActive x t = true)
    ∧ (findActiveBlock bs t = none ↔ ∀ x ∈ bs, blockActive x t = false)
    ∧ (sortBlocks bs).Pairwise (fun a b => a.startTime ≤ b.startTime)
    ∧ blockCharsPerSecond b = (b.text.length : ℚ) / b.duration
    ∧ timelineActiveAt 2 exBlocks 5 = none
    ∧ timelineActiveAt 2 exBlocks 2 = some ⟨"AB", 0, 2⟩
    ∧ blockCharsPerSecond ⟨"AB", 0, 2⟩ = 1 := by
  have hperm := List.mergeSort_perm bs
    fun a b => decide (a.startTime ≤ b.startTime)
  refine ⟨?_, ?_, ?_, ?_, rfl, timeline_ex_t25, timeline_ex_t1, bcps_AB⟩
  · rw [findActiveBlock, hdec]
    exact find?_first _ l1 l2 b hpre hb
  · intro y hy
    have hy' : (sortBlocks bs).find? (fun bl => blockActive bl t) = some y :=
      hy
    simpa using List.find?_some hy'
  · rw [findActiveBlock, List.find?_eq_none]
    constructor
    · intro h x hx
      have hmem : x ∈ sortBlocks bs := hperm.mem_iff.mpr hx
      simpa using h x hmem
    · intro h x hx
      have hmem : x ∈ bs := hperm.mem_iff.mp hx
      simp [h x hmem]
  · have htrans : ∀ a b c : Block,
        decide (a.startTime ≤ b.startTime) = true →
        decide (b.startTime ≤ c.startTime) = true →
        decide (a.startTime ≤ c.startTime) = true := by
      intro a b c hab hbc
      simp only [decide_eq_true_eq] at hab hbc ⊢
      exact le_trans hab hbc
    have htot : ∀ a b : Block,
        (decide (a.startTime ≤ b.startTime)
          || decide (b.startTime ≤ a.startTime)) = true := by
      intro a b
      rcases le_total a.startTime b.startTime with h | h <;> simp [h]
    exact (List.sorted_mergeSort htrans htot bs).imp fun h => by simpa using h

/-- Witness for C5 at the spec's example, `t = 1`, selecting block 0. -/
theorem timeline_sequencer_spec_witness :
    ((∀ x ∈ ([] : List Block), blockActive x 1 = false)
      ∧ blockActive ⟨"AB", 0, 2⟩ 1 = true
      ∧ sortBlocks exBlocks = [] ++ ⟨"AB", 0, 2⟩ :: [⟨"CD", 3, 2⟩])
    ∧ (findActiveBlock exBlocks 1 = some ⟨"AB", 0, 2⟩
      ∧ (∀ x : Block,
          findActiveBlock exBlocks 1 = some x → blockActive x 1 = true)
      ∧ (findActiveBlock exBlocks 1 = none
          ↔ ∀ x ∈ exBlocks, blockActive x 1 = false)
      ∧ (sortBlocks exBlocks).Pairwise (fun a b => a.startTime ≤ b.startTime)
      ∧ blockCharsPerSecond ⟨"AB", 0, 2⟩
          = ((Block.text ⟨"AB", 0, 2⟩).length : ℚ) / Block.duration ⟨"AB", 0, 2⟩
      ∧ timelineActiveAt 2 exBlocks 5 = none
      ∧ timelineActiveAt 2 exBlocks 2 = some ⟨"AB", 0, 2⟩
      ∧ blockCharsPerSecond ⟨"AB", 0, 2⟩ = 1) :=
  ⟨⟨by simp, by simp only [blockActive, decide_eq_true_eq]; norm_num,
     by rw [sortBlocks_ex]; rfl⟩,
   timeline_sequencer_spec exBlocks 1 [] [⟨"CD", 3, 2⟩] ⟨"AB", 0, 2⟩
     (by simp) (by simp only [blockActive, decide_eq_true_eq]; norm_num)
     (by rw [sortBlocks_ex]; rfl)⟩

lemma emitTrace_filterMap (drained : ℕ → Bool) (n : ℕ) :
    (emitTrace drained n).filterMap frameIdx = List.range n := by
  induction n with
  | zero => rfl
  | succ n ih =>
    rw [emitTrace, List.filterMap_append, ih, List.range_succ]
    congr 1
    by_cases h : drained n <;>
      simp [emitEvents, h, frameIdx, List.filterMap_cons]

lemma emitTrace_mono (drained : ℕ → Bool) (m n : ℕ) (h : m ≤ n) :
    List.Sublist (emitTrace drained m) (emitTrace drained n) := by
  induction h with
  | refl => exact List.Sublist.refl _
  | step _ ih =>
    exact ih.trans (List.sublist_append_left _ _)

lemma backpressure_triple (drained : ℕ → Bool) (n N : ℕ) (hN : n + 1 < N)
    (hd : drained n = false) :
    List.Sublist [EmitEvent.frame n, EmitEvent.drainWait n,
      EmitEvent.frame (n + 1)] (emitTrace drained N) := by
  have h2 : List.Sublist (emitTrace drained (n + 2)) (emitTrace drained N) :=
    emitTrace_mono drained (n + 2) N hN
  refine List.Sublist.trans ?_ h2
  have hdecomp : emitTrace drained (n + 2)
      = emitTrace drained n
        ++ (emitEvents drained n ++ emitEvents drained (n + 1)) := by
    rw [emitTrace, emitTrace, List.append_assoc]
  rw [hdecomp]
  refine List.Sublist.trans ?_ (List.sublist_append_right _ _)
  have hn : emitEvents drained n
      = [EmitEvent.frame n, EmitEvent.drainWait n] := by
    rw [emitEvents, if_neg (by simp [hd])]
  have hsub : List.Sublist [EmitEvent.frame (n + 1)]
      (emitEvents drained (n + 1)) := by
    by_cases h : drained (n + 1)
    · rw [emitEvents, if_pos (by simp [h])]
    · rw [emitEvents, if_neg (by simp [h])]
      exact (List.nil_sublist _).cons₂ _
  rw [hn]
  exact ((hsub.cons₂ (EmitEvent.drainWait n)).cons₂ (EmitEvent.frame n))

/-- C7: the render loop writes frame buffers in strictly ascending frame
order — the write events of the emission trace over `N` frames are exactly
`0, 1, …, N-1` in that order — and whenever the write of frame `n` returns
`false` (backpressure), the suspension on the drain signal sits between the
write of frame `n` and the write of frame `n+1` in the trace: the stream
never receives frame `n+1` before frame `n`'s write has returned and, when
backpressured, the drain has fired. -/
theorem frame_emission_order (drained : ℕ → Bool) (N n : ℕ)
    (hN : n + 1 < N) (hd : drained n = false) :
    (emitTrace drained N).filterMap frameIdx = List.range N
    ∧ List.Sublist [EmitEvent.frame n, EmitEvent.drainWait n,
        EmitEvent.frame (n + 1)] (emitTrace drained N) :=
  ⟨emitTrace_filterMap drained N, backpressure_triple drained n N hN hd⟩

/-- Witness for C7: three frames over a stream that backpressures frame 0. -/
theorem frame_emission_order_witness :
    (0 + 1 < 3 ∧ (fun _ : ℕ => false) 0 = false)
    ∧ ((emitTrace (fun _ => false) 3).filterMap frameIdx = List.range 3
      ∧ List.Sublist [EmitEvent.frame 0, EmitEvent.drainWait 0,
          EmitEvent.frame (0 + 1)] (emitTrace (fun _ => false) 3)) :=
  ⟨⟨by decide, rfl⟩,
   frame_emission_order (fun _ => false) 3 0 (by decide) rfl⟩

/-- C9: the output path is auto-deduplicated — an existing `video.mp4`
yields `video_1.mp4`, and with both taken, `video_2.mp4` — and a render
invocation resolves with the deduplicated path exactly when the encoder
exits with code `0`, rejecting with an error carrying the nonzero exit code
otherwise. -/
theorem renderVideo_spec (fs : List String) (dir base ext out : String)
    (code : ℤ) (hout : getUniqueOutputPath fs dir base ext = some out)
    (hcode : code ≠ 0) :
    renderVideo fs dir base ext 0 = some (.ok out)
    ∧ renderVideo fs dir base ext code = some (.error (.ffmpegError code))
    ∧ getUniqueOutputPath ["out/video.mp4"] "out" "video" ".mp4"
        = some "out/video_1.mp4"
    ∧ getUniqueOutputPath ["out/video.mp4", "out/video_1.mp4"] "out" "video"
        ".mp4" = some "out/video_2.mp4" := by
  refine ⟨?_, ?_, by decide, by decide⟩
  · rw [renderVideo, hout]
    simp
  · rw [renderVideo, hout]
    simp [hcode]

/-- Witness for C9: a second render against an existing `video.mp4`, with
success code `0` and failure code `7`. -/
theorem renderVideo_spec_witness :
    (getUniqueOutputPath ["out/video.mp4"] "out" "video" ".mp4"
        = some "out/video_1.mp4" ∧ (7 : ℤ) ≠ 0)
    ∧ (renderVideo ["out/video.mp4"] "out" "video" ".mp4" 0
          = some (.ok "out/video_1.mp4")
      ∧ renderVideo ["out/video.mp4"] "out" "video" ".mp4" 7
          = some (.error (.ffmpegError 7))
      ∧ getUniqueOutputPath ["out/video.mp4"] "out" "video" ".mp4"
          = some "out/video_1.mp4"
      ∧ getUniqueOutputPath ["out/video.mp4", "out/video_1.mp4"] "out"
          "video" ".mp4" = some "out/video_2.mp4") :=
  ⟨⟨by decide, by decide⟩,
   renderVideo_spec ["out/video.mp4"] "out" "video" ".mp4" "out/video_1.mp4"
     7 (by decide) (by decide)⟩

/-- C10: throughout any render — both the single-block loop of
`renderSegmentToStream` and the timeline loop of `renderTimelineToStream`
(whose trauma update also resets on a new block and is skipped entirely on
block-less frames) — the invariant `0 ≤ shakeTrauma ≤ max(jitter, 0)` holds
at every frame with no hypothesis on the configuration; consequently, when
`jitter ≤ 0.5` the `shakeTrauma > 0.5` branch is unreachable in either loop,
the shake translation is `(0, 0)` on every frame, and the frame descriptor
is independent of the random source — the render is deterministic even for
nonzero jitter up to `0.5`. -/
theorem shakeTrauma_invariant (c : Config) (tc : ℕ) (bs : List Block)
    (rX rY rX' rY' : ℕ → ℚ) (f : ℕ) :
    (0 ≤ (stateAt c tc rX rY f).shakeTrauma
      ∧ (stateAt c tc rX rY f).shakeTrauma ≤ max c.jitter 0)
    ∧ (0 ≤ (timelineStateAt c bs rX rY f).shakeTrauma
      ∧ (timelineStateAt c bs rX rY f).shakeTrauma ≤ max c.jitter 0)
    ∧ (c.jitter ≤ 1/2 →
        (¬ ((stateAt c tc rX rY (f + 1)).shakeTrauma > 1/2)
          ∧ (frameAt c tc rX rY f).shakeX = 0
          ∧ (frameAt c tc rX rY f).shakeY = 0
          ∧ frameAt c tc rX rY f = frameAt c tc rX' rY' f)
        ∧ (¬ ((timelineStateAt c bs rX rY (f + 1)).shakeTrauma > 1/2)
          ∧ (timelineFrameAt c bs rX rY f).shakeX = 0
          ∧ (timelineFrameAt c bs rX rY f).shakeY = 0
          ∧ timelineFrameAt c bs rX rY f
              = timelineFrameAt c bs rX' rY' f)) := by
  refine ⟨shakeTrauma_bounds c tc rX rY f, timelineTrauma_bounds c bs rX rY f,
    fun hj => ?_⟩
  have hnot : ¬ ((stateAt c tc rX rY (f + 1)).shakeTrauma > 1/2) :=
    not_lt.mpr (le_trans (shakeTrauma_bounds c tc rX rY (f + 1)).2
      (max_le hj (by norm_num)))
  have hnotT : ¬ ((timelineStateAt c bs rX rY (f + 1)).shakeTrauma > 1/2) :=
    not_lt.mpr (le_trans (timelineTrauma_bounds c bs rX rY (f + 1)).2
      (max_le hj (by norm_num)))
  have hnot' : ¬ ((stateAt c tc rX' rY' (f + 1)).shakeTrauma > 1/2) := by
    rw [stateAt_rand_irrel c tc rX' rY' rX rY (f + 1)]
    exact hnot
  have hzero := frameAt_eq_of_no_shake c tc rX rY f hnot
  have hT := timelineFrame_no_shake c bs rX rY rX' rY' f hnotT
  refine ⟨⟨hnot, ?_, ?_, ?_⟩, hnotT, hT⟩
  · rw [hzero]
  · rw [hzero]
  · rw [hzero, frameAt_eq_of_no_shake c tc rX' rY' f hnot']

/-- Witness for C10 at jitter `0.4 ≤ 0.5`, with the spec's example blocks
for the timeline loop and two unequal random oracles. -/
theorem shakeTrauma_invariant_witness :
    ((0 ≤ (stateAt cfgJ 20 (fun _ => 1) (fun _ => 1) 5).shakeTrauma
      ∧ (stateAt cfgJ 20 (fun _ => 1) (fun _ => 1) 5).shakeTrauma
          ≤ max cfgJ.jitter 0)
    ∧ (0 ≤ (timelineStateAt cfgJ exBlocks (fun _ => 1) (fun _ => 1)
          5).shakeTrauma
      ∧ (timelineStateAt cfgJ exBlocks (fun _ => 1) (fun _ => 1)
          5).shakeTrauma ≤ max cfgJ.jitter 0)
    ∧ (cfgJ.jitter ≤ 1/2 →
        (¬ ((stateAt cfgJ 20 (fun _ => 1) (fun _ => 1)
              (5 + 1)).shakeTrauma > 1/2)
          ∧ (frameAt cfgJ 20 (fun _ => 1) (fun _ => 1) 5).shakeX = 0
          ∧ (frameAt cfgJ 20 (fun _ => 1) (fun _ => 1) 5).shakeY = 0
          ∧ frameAt cfgJ 20 (fun _ => 1) (fun _ => 1) 5
              = frameAt cfgJ 20 (fun _ => 0) (fun _ => 0) 5)
        ∧ (¬ ((timelineStateAt cfgJ exBlocks (fun _ => 1) (fun _ => 1)
              (5 + 1)).shakeTrauma > 1/2)
          ∧ (timelineFrameAt cfgJ exBlocks (fun _ => 1) (fun _ => 1)
              5).shakeX = 0
          ∧ (timelineFrameAt cfgJ exBlocks (fun _ => 1) (fun _ => 1)
              5).shakeY = 0
          ∧ timelineFrameAt cfgJ exBlocks (fun _ => 1) (fun _ => 1) 5
              = timelineFrameAt cfgJ exBlocks (fun _ => 0)
                  (fun _ => 0) 5))) :=
  shakeTrauma_invariant cfgJ 20 exBlocks (fun _ => 1) (fun _ => 1)
    (fun _ => 0) (fun _ => 0) 5

end Brat
